import Mathlib

/-!
Verification of the Western Shooter game simulation (`game.js`).

The development shallowly embeds the simulation core of `game.js`:
the enemy behavior state machine, the wave/spawn director, the player
resource model (bullets, reload, lives) and the top-level session state
machine.  JS numbers are modelled as `ℚ` (timers, coordinates) and `ℤ`
(counters that the code can in principle drive negative); `Math.random`
draws and `Math.sin` values are passed in as explicit oracle arguments.
The `setTimeout` deferred callbacks of `game.js` are modelled as separate
transition constructors of a step relation `Step`, guarded exactly as the
callbacks are guarded in the source.  Rendering code is omitted: it reads
the state and draws, mutating nothing the claims are about.
-/

namespace WesternShooter

/-- Logical playfield width (`const W = 480`). -/
def W : ℚ := 480

/-- Logical playfield height (`const H = 720`). -/
def H : ℚ := 720

/-- `const MAX_BULLETS = 6`. -/
def MAX_BULLETS : ℤ := 6

/-- `const RELOAD_TIME = 2.0` seconds. -/
def RELOAD_TIME : ℚ := 2

/-- `const MAX_LIVES = 3`. -/
def MAX_LIVES : ℤ := 3

/-- `const DOOR_CX = 412` (enemies enter from the door). -/
def DOOR_CX : ℚ := 412

/-- Visual archetype tag of a cover slot (`type: 'barrel' | 'table'`). -/
inductive CoverKind where
  | barrel
  | table
deriving DecidableEq, Repr

/-- A cover slot record (`COVERS` array entries). -/
structure Cover where
  id : ℕ
  x : ℚ
  y : ℚ
  w : ℚ
  h : ℚ
  kind : CoverKind
deriving DecidableEq, Repr

/-- The four static cover slots (`const COVERS = [...]`). -/
def COVERS : List Cover :=
  [⟨0,  78, 410,  90, 112, CoverKind.barrel⟩,
   ⟨1, 200, 405, 134,  92, CoverKind.table⟩,
   ⟨2, 308, 405, 134,  92, CoverKind.table⟩,
   ⟨3, 420, 410,  90, 112, CoverKind.barrel⟩]

/-- `clamp(v, lo, hi)` from the helpers section. -/
def clamp (v lo hi : ℚ) : ℚ :=
  if v < lo then lo else if v > hi then hi else v

/-- `inRect(px, py, rx, ry, rw, rh)`: inclusive point-in-rectangle test. -/
def inRect (px py rx ry rw rh : ℚ) : Prop :=
  rx ≤ px ∧ px ≤ rx + rw ∧ ry ≤ py ∧ py ≤ ry + rh

instance instDecidableInRect (px py rx ry rw rh : ℚ) :
    Decidable (inRect px py rx ry rw rh) :=
  inferInstanceAs (Decidable (_ ∧ _ ∧ _ ∧ _))

/-- `Math.sign`, used for the entry walk direction. -/
def qsign (q : ℚ) : ℚ :=
  if 0 < q then 1 else if q < 0 then -1 else 0

/-- Behavior state of an enemy (the `e.state` discriminant string). -/
inductive EState where
  | entering
  | hiding
  | warning
  | peeking
  | shooting
  | retreating
  | dead
deriving DecidableEq, Repr

/-- The `type` field of a particle record. -/
inductive PType where
  | flash
  | hole
  | blood
  | hit
  | eflash
deriving DecidableEq, Repr

/-- An enemy record, as pushed by `spawnEnemy`. -/
structure Enemy where
  coverId : ℕ
  cover : Cover
  hp : ℤ
  maxHp : ℤ
  outfit : ℕ
  state : EState
  visible : Bool
  drawX : ℚ
  drawY : ℚ
  peekY : ℚ
  walkFrame : ℕ
  walkT : ℚ
  hideT : ℚ
  warnT : ℚ
  peekT : ℚ
  retreatT : ℚ
  deadT : ℚ
  shootT : ℚ
deriving DecidableEq, Repr

/-- A particle record; `vx`/`vy` are `none` when the JS fields are `undefined`. -/
structure Particle where
  ptype : PType
  x : ℚ
  y : ℚ
  vx : Option ℚ
  vy : Option ℚ
  t : ℚ
deriving DecidableEq, Repr

/-- Top-level session mode (`this.state`). -/
inductive GState where
  | intro
  | playing
  | gameover
deriving DecidableEq, Repr

/-- The mutable game state: the fields set in the `WesternShooter`
constructor and reset by `startGame` (canvas/scale plumbing omitted). -/
structure Game where
  state : GState
  score : ℕ
  bestScore : ℕ
  lives : ℤ
  bullets : ℤ
  reloading : Bool
  reloadTimer : ℚ
  wave : ℕ
  waveSpawned : ℕ
  waveKills : ℕ
  waveEnemies : ℕ
  spawnTimer : ℚ
  spawnInterval : ℚ
  enemies : List Enemy
  particles : List Particle
  doorSwing : ℚ
  hitFlash : ℚ
  waveBanner : ℚ
  time : ℚ
deriving DecidableEq, Repr

/-- The state built by the `WesternShooter` constructor at process start. -/
def init : Game :=
  { state := GState.intro
    score := 0
    bestScore := 0
    lives := MAX_LIVES
    bullets := MAX_BULLETS
    reloading := false
    reloadTimer := 0
    wave := 1
    waveSpawned := 0
    waveKills := 0
    waveEnemies := 5
    spawnTimer := 2
    spawnInterval := 3
    enemies := []
    particles := []
    doorSwing := 0
    hitFlash := 0
    waveBanner := 0
    time := 0 }

/-- `enemyHitbox(e)`: the tappable hitbox of a visible enemy. -/
structure Rect where
  x : ℚ
  y : ℚ
  w : ℚ
  h : ℚ
deriving DecidableEq, Repr

/-- `enemyHitbox(e) = { x: e.drawX - 30, y: e.drawY - 68, w: 60, h: 95 }`. -/
def enemyHitbox (e : Enemy) : Rect :=
  ⟨e.drawX - 30, e.drawY - 68, 60, 95⟩

/-- `startGame()`: reset every dynamic field and enter the playing mode.
It deliberately leaves `bestScore` and `time` alone, as the source does. -/
def startGame (g : Game) : Game :=
  { g with
    state := GState.playing
    score := 0
    lives := MAX_LIVES
    bullets := MAX_BULLETS
    reloading := false
    reloadTimer := 0
    wave := 1
    waveSpawned := 0
    waveKills := 0
    waveEnemies := 5
    spawnTimer := 2
    spawnInterval := 3
    enemies := []
    particles := []
    doorSwing := 0
    hitFlash := 0
    waveBanner := 0 }

/-- `triggerReload()`: no-op while reloading or at full ammunition,
otherwise start the fixed-length reload countdown. -/
def triggerReload (g : Game) : Game :=
  if g.reloading = true ∨ g.bullets = MAX_BULLETS then g
  else { g with reloading := true, reloadTimer := RELOAD_TIME }

/-- `takeDamage()`: the delayed session-end (`setTimeout` at 550ms) is
modelled by the separate `gameOverEvent`. -/
def takeDamage (g : Game) : Game :=
  if g.state ≠ GState.playing then g
  else
    let g1 := { g with lives := max 0 (g.lives - 1), hitFlash := 11/20 }
    if g1.lives = 0 then { g1 with bestScore := max g1.bestScore g1.score }
    else g1

/-- The body of the `setTimeout` scheduled by `takeDamage` when lives hit
zero: `this.state = 'gameover'` (unconditional in the source). -/
def gameOverEvent (g : Game) : Game :=
  { g with state := GState.gameover }

/-- `advanceWave()`: guarded on the session still playing; note the
target uses the already-incremented wave number. -/
def advanceWave (g : Game) : Game :=
  if g.state ≠ GState.playing then g
  else
    { g with
      wave := g.wave + 1
      waveSpawned := 0
      waveKills := 0
      waveEnemies := 5 + (g.wave + 1) * 2
      spawnInterval := max (11/10) (3 - ((g.wave : ℚ) + 1) * (11/50))
      spawnTimer := 9/5
      waveBanner := 13/5
      enemies := [] }

/-- The seven blood particles pushed by `damageEnemy`; the `rand` draws
are supplied by the oracle `ρ` (three draws per particle). -/
def bloodParticles (ρ : ℕ → ℚ) (cx cy : ℚ) : List Particle :=
  (List.range 7).map (fun k =>
    { ptype := PType.blood
      x := cx
      y := cy
      vx := some (ρ (3 * k))
      vy := some (ρ (3 * k + 1))
      t := ρ (3 * k + 2) })

/-- `damageEnemy(e)` for the enemy at index `i` of the enemy list:
decrement hit points, emit feedback particles, then either transition to
`dead` (awarding score and a wave kill) or to `retreating`.  The two
`setTimeout`s (wave advance, retreat recovery) are modelled by the
`waveEvent` and `hidingEvent` step constructors. -/
def damageEnemy (ρ : ℕ → ℚ) (i : ℕ) (g : Game) : Game :=
  match g.enemies.get? i with
  | none => g
  | some e =>
    let hb := enemyHitbox e
    let cx := hb.x + hb.w / 2
    let cy := hb.y + hb.h / 2
    let parts := bloodParticles ρ cx cy ++
      [{ ptype := PType.hit, x := cx, y := cy, vx := none, vy := none, t := 11/50 }]
    let hp2 : ℤ := e.hp - 1
    if hp2 ≤ 0 then
      { g with
        enemies := g.enemies.set i
          { e with hp := hp2, state := EState.dead, visible := true, deadT := 3/4 }
        particles := g.particles ++ parts
        score := g.score + 100 * g.wave
        waveKills := g.waveKills + 1 }
    else
      { g with
        enemies := g.enemies.set i
          { e with hp := hp2, state := EState.retreating, retreatT := 9/20 }
        particles := g.particles ++ parts }

/-- The guarded retreat-recovery / post-shot-recovery callback bodies
(`setTimeout`s in `damageEnemy` and `enemyShoot`): if the captured enemy
has not died in the interim, send it back to hiding with a fresh dwell. -/
def hideEvent (i : ℕ) (r : ℚ) (g : Game) : Game :=
  match g.enemies.get? i with
  | none => g
  | some e =>
    if e.state = EState.dead then g
    else
      { g with enemies :=
          g.enemies.set i { e with state := EState.hiding, hideT := r, visible := false } }

/-- The first indexed visible enemy whose hitbox contains the tap point:
the `for (const e of this.enemies)` loop of `fireAt` with its
`if (!e.visible) continue` filter and first-match `break`. -/
def findHitIndex (x y : ℚ) : List Enemy → Option ℕ
  | [] => none
  | e :: es =>
    if e.visible = true ∧
        inRect x y (enemyHitbox e).x (enemyHitbox e).y (enemyHitbox e).w (enemyHitbox e).h
    then some 0
    else Option.map (fun n => n + 1) (findHitIndex x y es)

/-- `fireAt(x, y)`: consume a bullet, emit a muzzle flash, hit-test the
enemies, damage the first hit or drop a bullet-hole decal.  The
auto-reload `setTimeout` on reaching zero bullets is modelled by the
`reloadEvent` step constructor. -/
def fireAt (ρ : ℕ → ℚ) (x y : ℚ) (g : Game) : Game :=
  let g1 := { g with
    bullets := g.bullets - 1
    particles := g.particles ++
      [{ ptype := PType.flash, x := W / 2, y := H - 145, vx := none, vy := none, t := 7/50 }] }
  match findHitIndex x y g1.enemies with
  | some i => damageEnemy ρ i g1
  | none =>
    { g1 with particles := g1.particles ++
        [{ ptype := PType.hole, x := x, y := y, vx := none, vy := none, t := 7 }] }

/-- `onTap(x, y)`: the input dispatcher. -/
def onTap (ρ : ℕ → ℚ) (x y : ℚ) (g : Game) : Game :=
  if g.state = GState.intro then
    if inRect x y (W / 2 - 125) (H / 2 + 90) 250 56 then startGame g else g
  else if g.state = GState.gameover then
    if inRect x y (W / 2 - 110) (H * 67 / 100) 220 56 then startGame g else g
  else if g.state ≠ GState.playing then g
  else if inRect x y (W - 118) (H - 70) 108 34 then triggerReload g
  else if g.reloading = true ∨ g.bullets ≤ 0 then triggerReload g
  else fireAt ρ x y g

/-- `enemyShoot(e)`: guarded on the enemy being alive; transition to
`shooting` and emit the enemy muzzle flash.  The two `setTimeout`s
(delayed player damage at 260ms, return to hiding at 720ms) are modelled
by the `damageEvent` and `hidingEvent` step constructors. -/
def enemyShoot (e : Enemy) : Enemy × List Particle :=
  if e.state = EState.dead then (e, [])
  else
    ({ e with state := EState.shooting, shootT := 2/5 },
     [{ ptype := PType.eflash, x := e.drawX - 24, y := e.drawY + 8,
        vx := none, vy := none, t := 7/50 }])

/-- The body of the 260ms `setTimeout` scheduled by `enemyShoot`:
`if (e.state !== 'dead') this.takeDamage()` for the captured enemy. -/
def shootDamageEvent (e : Enemy) (g : Game) : Game :=
  if e.state = EState.dead then g else takeDamage g

/-- The `usedIds` set scanned by `spawnEnemy`: cover identifiers of the
currently non-dead enemies. -/
def spawnUsedIds (g : Game) : List ℕ :=
  (g.enemies.filter (fun e => decide (e.state ≠ EState.dead))).map (fun e => e.coverId)

/-- The `free` list of `spawnEnemy`: cover slots not occupied by a
non-dead enemy. -/
def spawnFree (g : Game) : List Cover :=
  COVERS.filter (fun c => decide (¬ c.id ∈ spawnUsedIds g))

/-- `spawnEnemy()`: scan current non-dead occupancy, pick a free cover
slot (the uniform choice is supplied as the oracle `slot`, reduced
modulo the number of free slots), and push a fresh `entering` enemy. -/
def spawnEnemy (slot outfit : ℕ) (g : Game) : Game :=
  match (spawnFree g).get? (slot % (spawnFree g).length) with
  | none => g
  | some cover =>
    let coverTop := cover.y - cover.h / 2
    let peekY := coverTop - 28
    let hp0 : ℤ := if 3 ≤ g.wave then 2 else 1
    { g with
      enemies := g.enemies ++
        [{ coverId := cover.id
           cover := cover
           hp := hp0
           maxHp := hp0
           outfit := outfit % 3
           state := EState.entering
           visible := true
           drawX := DOOR_CX
           drawY := peekY
           peekY := peekY
           walkFrame := 0
           walkT := 0
           hideT := 0
           warnT := 0
           peekT := 0
           retreatT := 0
           deadT := 0
           shootT := 0 }]
      waveSpawned := g.waveSpawned + 1
      doorSwing := 1 }

/-- `updateEnemy(e, dt)`: one frame of the per-enemy state machine.
`r` supplies the single `rand` draw a branch may consume; `s` supplies
the value of `Math.sin(this.time * 13.3)` used for the warning bob. -/
def updateEnemy (r s : ℚ) (wave : ℕ) (dt : ℚ) (e : Enemy) : Enemy × List Particle :=
  let spd := (115 + (wave : ℚ) * 12) * dt
  match e.state with
  | EState.entering =>
    let walkT2 := e.walkT + dt
    let e1 :=
      if walkT2 > 7/50 then { e with walkT := 0, walkFrame := e.walkFrame ^^^ 1 }
      else { e with walkT := walkT2 }
    let dx := e1.cover.x - e1.drawX
    if |dx| ≤ spd then
      ({ e1 with drawX := e1.cover.x, state := EState.hiding, hideT := r, visible := false }, [])
    else
      ({ e1 with drawX := e1.drawX + qsign dx * spd }, [])
  | EState.hiding =>
    let t2 := e.hideT - dt
    if t2 ≤ 0 then
      ({ e with
          hideT := t2
          state := EState.warning
          warnT := r
          visible := true
          drawY := e.peekY + 30 }, [])
    else ({ e with hideT := t2 }, [])
  | EState.warning =>
    let t2 := e.warnT - dt
    if t2 ≤ 0 then
      ({ e with warnT := t2, state := EState.peeking, peekT := r, drawY := e.peekY }, [])
    else ({ e with warnT := t2, drawY := e.peekY + 28 + s * 5 }, [])
  | EState.peeking =>
    let t2 := e.peekT - dt
    if t2 ≤ 0 then enemyShoot { e with peekT := t2 }
    else ({ e with peekT := t2 }, [])
  | EState.shooting => ({ e with shootT := e.shootT - dt }, [])
  | EState.retreating =>
    let t2 := e.retreatT - dt
    ({ e with retreatT := t2, drawY := e.peekY + (1 - clamp (t2 / (9/20)) 0 1) * 35 }, [])
  | EState.dead => ({ e with deadT := e.deadT - dt, drawY := e.drawY + dt * 55 }, [])

/-- The `this.enemies.forEach(e => this.updateEnemy(e, dt))` loop:
updates each enemy in order (enemy `i` consuming the oracle draw `er i`)
and collects the particles the updates push. -/
def updateEnemies (er : ℕ → ℚ) (s : ℚ) (wave : ℕ) (dt : ℚ) :
    ℕ → List Enemy → List Enemy × List Particle
  | _, [] => ([], [])
  | i, e :: es =>
    let p1 := updateEnemy (er i) s wave dt e
    let rest := updateEnemies er s wave dt (i + 1) es
    (p1.1 :: rest.1, p1.2 ++ rest.2)

/-- The removal filter of `update`:
`this.enemies = this.enemies.filter(e => !(e.state === 'dead' && e.deadT <= 0))`. -/
def survives (e : Enemy) : Bool :=
  decide (¬ (e.state = EState.dead ∧ e.deadT ≤ 0))

/-- `clamp(2 + Math.floor(this.wave * 0.6), 1, 4)`, the concurrency cap.
For naturals `Math.floor(wave * 0.6)` is `3 * wave / 5` up to the float
rounding of `0.6`, and the two disagree only for multiples of 5, where
the clamp has already saturated at 4, so the capped values coincide. -/
def maxActiveFor (wave : ℕ) : ℕ :=
  min 4 (max 1 (2 + 3 * wave / 5))

/-- The spawn-gating block of `update`: countdown only while below the
concurrency cap and below the wave total, reschedule (base interval plus
jitter `jit`) and spawn when the countdown expires. -/
def spawnStep (dt jit : ℚ) (slot outfit : ℕ) (g : Game) : Game :=
  let active := (g.enemies.filter (fun e => decide (e.state ≠ EState.dead))).length
  if active < maxActiveFor g.wave ∧ g.waveSpawned < g.waveEnemies then
    let st := g.spawnTimer - dt
    if st ≤ 0 then
      spawnEnemy slot outfit { g with spawnTimer := g.spawnInterval + jit }
    else { g with spawnTimer := st }
  else g

/-- One step of the particle loop: age the particle and, when it has a
velocity (`p.vx !== undefined`), integrate position and gravity. -/
def particleStep (dt : ℚ) (p : Particle) : Particle :=
  let p1 := { p with t := p.t - dt }
  match p1.vx, p1.vy with
  | some vx, some vy =>
    { p1 with x := p1.x + vx, y := p1.y + vy, vy := some (vy + 9/50) }
  | _, _ => p1

/-- The timer-decay block at the top of `update`: advance the clock and
decay the door swing, the red hit overlay and the wave banner. -/
def decayStep (dt : ℚ) (g : Game) : Game :=
  { g with
    time := g.time + dt
    doorSwing := if 0 < g.doorSwing then max 0 (g.doorSwing - dt * (3/2)) else g.doorSwing
    hitFlash := if 0 < g.hitFlash then max 0 (g.hitFlash - dt * (11/5)) else g.hitFlash
    waveBanner := if 0 < g.waveBanner then g.waveBanner - dt else g.waveBanner }

/-- The reload block of `update`: count the reload timer down and, on
expiry, clear the flag and restore the ammunition to the maximum. -/
def reloadStep (dt : ℚ) (g : Game) : Game :=
  if g.reloading = true then
    if g.reloadTimer - dt ≤ 0 then
      { g with reloading := false, reloadTimer := 0, bullets := MAX_BULLETS }
    else { g with reloadTimer := g.reloadTimer - dt }
  else g

/-- The enemy/particle block of `update`: advance every enemy, remove
dead enemies whose terminal timer has expired, then age, move and cull
the particles (including those the enemy updates just pushed). -/
def entitiesStep (er : ℕ → ℚ) (s : ℚ) (dt : ℚ) (g : Game) : Game :=
  { g with
    enemies := (updateEnemies er s g.wave dt 0 g.enemies).1.filter survives
    particles :=
      ((g.particles ++ (updateEnemies er s g.wave dt 0 g.enemies).2).map
        (particleStep dt)).filter (fun p => decide (0 < p.t)) }

/-- `update(dt)`: one simulation step, gated on the playing mode.
Order as in the source: timers, reload countdown, spawn gating, enemy
updates, dead-enemy removal, particle updates. -/
def update (dt jit : ℚ) (slot outfit : ℕ) (er : ℕ → ℚ) (s : ℚ) (g : Game) : Game :=
  if g.state ≠ GState.playing then g
  else entitiesStep er s dt (spawnStep dt jit slot outfit (reloadStep dt (decayStep dt g)))

/-- One transition of the simulation: an input tap, a frame update (the
loop clamps `dt` to at most 50ms), or the firing of one of the
`setTimeout` deferred callbacks of the source, each guarded exactly as
the callback body is.  Oracle arguments range over all values, so every
run of the original program is a run of this relation. -/
inductive Step : Game → Game → Prop where
  | tap (ρ : ℕ → ℚ) (x y : ℚ) (g : Game) : Step g (onTap ρ x y g)
  | frame (dt jit : ℚ) (slot outfit : ℕ) (er : ℕ → ℚ) (s : ℚ) (g : Game)
      (hdt0 : 0 ≤ dt) (hdt1 : dt ≤ 1/20) :
      Step g (update dt jit slot outfit er s g)
  | reloadEvent (g : Game) : Step g (triggerReload g)
  | waveEvent (g : Game) : Step g (advanceWave g)
  | hidingEvent (i : ℕ) (r : ℚ) (g : Game) : Step g (hideEvent i r g)
  | damageEvent (e : Enemy) (g : Game) : Step g (shootDamageEvent e g)
  | overEvent (g : Game) : Step g (gameOverEvent g)

/-- States reachable from process start. -/
def Reachable (g : Game) : Prop :=
  Relation.ReflTransGen Step init g

/-- A concrete oracle for the `rand` draws of `damageEnemy`: every draw
lies inside the range the corresponding `rand(min, max)` call uses. -/
def rho2 : ℕ → ℚ :=
  fun n => if n % 3 = 0 then 0 else if n % 3 = 1 then -1 else 1/2

/-- A frame of 50ms (the loop's `dt` cap) with fixed benign oracles. -/
def frameStep (g : Game) : Game :=
  update (1/20) 0 0 0 (fun _ => 1) 0 g

/-- The playing state with no enemies yet: what `startGame` produces, up
to the spawn countdown `τ` and the running clock `t`. -/
def idleState (τ t : ℚ) : Game :=
  { state := GState.playing
    score := 0
    bestScore := 0
    lives := 3
    bullets := 6
    reloading := false
    reloadTimer := 0
    wave := 1
    waveSpawned := 0
    waveKills := 0
    waveEnemies := 5
    spawnTimer := τ
    spawnInterval := 3
    enemies := []
    particles := []
    doorSwing := 0
    hitFlash := 0
    waveBanner := 0
    time := t }

/-- The enemy spawned on the 40th frame after `startGame`, one movement
step into its entry walk: still `entering` and visible. -/
def eB : Enemy :=
  { coverId := 0
    cover := ⟨0, 78, 410, 90, 112, CoverKind.barrel⟩
    hp := 1
    maxHp := 1
    outfit := 0
    state := EState.entering
    visible := true
    drawX := 8113/20
    drawY := 326
    peekY := 326
    walkFrame := 0
    walkT := 1/20
    hideT := 0
    warnT := 0
    peekT := 0
    retreatT := 0
    deadT := 0
    shootT := 0 }

/-- The game state reached 40 frames after `startGame`: exactly one
enemy, `eB`, walking in from the door. -/
def gB : Game :=
  { state := GState.playing
    score := 0
    bestScore := 0
    lives := 3
    bullets := 6
    reloading := false
    reloadTimer := 0
    wave := 1
    waveSpawned := 1
    waveKills := 0
    waveEnemies := 5
    spawnTimer := 3
    spawnInterval := 3
    enemies := [eB]
    particles := []
    doorSwing := 1
    hitFlash := 0
    waveBanner := 0
    time := 2 }

/-- `eB` after one fatal tap: dead, still visible, awaiting removal. -/
def eC : Enemy :=
  { eB with hp := 0, state := EState.dead, visible := true, deadT := 3/4 }

/-- The per-enemy data invariant: an enemy is `dead` exactly when its
hit points have reached zero or less. -/
def EnemyInv (e : Enemy) : Prop :=
  e.state = EState.dead ↔ e.hp ≤ 0

/-- The number of non-dead enemies assigned to cover slot `sid`. -/
def slotCount (es : List Enemy) (sid : ℕ) : ℕ :=
  es.countP (fun e => decide (e.state ≠ EState.dead ∧ e.coverId = sid))

/-- The inductive invariant of the simulation: resource bounds, the
per-enemy hit-point/death relationship, single occupancy of cover slots,
and the wave-target bookkeeping. -/
structure Inv (g : Game) : Prop where
  bulletsLo : 0 ≤ g.bullets
  bulletsHi : g.bullets ≤ 6
  livesLo : 0 ≤ g.lives
  livesHi : g.lives ≤ 3
  enemyInv : ∀ e ∈ g.enemies, EnemyInv e
  slots : ∀ sid, slotCount g.enemies sid ≤ 1
  waveLo : 1 ≤ g.wave
  waveOne : g.wave = 1 → g.waveEnemies = 5
  waveTgt : 2 ≤ g.wave → g.waveEnemies = 5 + g.wave * 2

/-- The record `damageEnemy` writes for a fatal hit: hit points one
lower, state `dead`, forced visible, the fixed terminal timer armed. -/
def killedEnemy (e : Enemy) : Enemy :=
  { e with hp := e.hp - 1, state := EState.dead, visible := true, deadT := 3/4 }

/-- `eB` promoted to the `peeking` state (witness data). -/
def eP : Enemy :=
  { eB with state := EState.peeking }

/-- `gB` with its single enemy peeking (witness data). -/
def gP : Game :=
  { gB with enemies := [eP] }

/-- A playing state whose four cover slots are all occupied by non-dead
enemies (witness data for the spawn-gating boundary). -/
def gFull : Game :=
  { gB with enemies := [{ eB with coverId := 0 }, { eB with coverId := 1 },
      { eB with coverId := 2 }, { eB with coverId := 3 }] }

lemma startGame_init : startGame init = idleState 2 0 := by
  norm_num [startGame, init, idleState, MAX_LIVES, MAX_BULLETS]

lemma frameStep_idle (τ t : ℚ) (h : 1/20 < τ) :
    frameStep (idleState τ t) = idleState (τ - 1/20) (t + 1/20) := by
  have h2 : ¬ (τ - 1/20 ≤ 0) := by linarith
  norm_num [frameStep, update, decayStep, reloadStep, entitiesStep, idleState, spawnStep,
    maxActiveFor, updateEnemies, h2]

lemma iter_idle (n : ℕ) (hn : n ≤ 39) :
    frameStep^[n] (idleState 2 0) = idleState (2 - n / 20) (n / 20) := by
  induction n with
  | zero => norm_num
  | succ k ih =>
    have hk : k ≤ 39 := by omega
    have hkq : (k : ℚ) ≤ 38 := by exact_mod_cast (by omega : k ≤ 38)
    rw [Function.iterate_succ_apply', ih hk, frameStep_idle _ _ (by linarith)]
    have e1 : (2 : ℚ) - (k : ℚ) / 20 - 1/20 = 2 - ((k + 1 : ℕ) : ℚ) / 20 := by
      push_cast; ring
    have e2 : ((k : ℚ) / 20) + 1/20 = ((k + 1 : ℕ) : ℚ) / 20 := by
      push_cast; ring
    rw [e1, e2]

lemma frame40 : frameStep (idleState (1/20) (39/20)) = gB := by
  norm_num [frameStep, update, decayStep, reloadStep, entitiesStep, idleState, spawnStep,
    maxActiveFor, spawnEnemy, spawnFree, spawnUsedIds, COVERS, updateEnemies, updateEnemy,
    qsign, survives, gB, eB, DOOR_CX, MAX_BULLETS]
  decide

lemma onTap_playing_shoot (ρ : ℕ → ℚ) (x y : ℚ) (g : Game)
    (hst : g.state = GState.playing)
    (hrect : ¬ inRect x y (W - 118) (H - 70) 108 34)
    (hrel : g.reloading = false) (hb : ¬ g.bullets ≤ 0) :
    onTap ρ x y g = fireAt ρ x y g := by
  simp [onTap, hst, hrect, hrel, hb]

lemma tap1_facts :
    (onTap rho2 400 300 gB).state = GState.playing ∧
    (onTap rho2 400 300 gB).reloading = false ∧
    (onTap rho2 400 300 gB).bullets = 5 ∧
    (onTap rho2 400 300 gB).enemies = [eC] ∧
    (onTap rho2 400 300 gB).wave = 1 := by
  rw [onTap_playing_shoot rho2 400 300 gB (by norm_num [gB]) (by norm_num [inRect, W, H])
    (by norm_num [gB]) (by norm_num [gB])]
  refine ⟨?_, ?_, ?_, ?_, ?_⟩ <;>
    norm_num [fireAt, findHitIndex, damageEnemy, enemyHitbox, inRect, gB, eB, eC]

lemma tap2_enemies (g : Game) (hst : g.state = GState.playing) (hrel : g.reloading = false)
    (hb : g.bullets = 5) (hen : g.enemies = [eC]) :
    (onTap rho2 400 300 g).enemies = [{ eC with hp := -1 }] := by
  rw [onTap_playing_shoot rho2 400 300 g hst (by norm_num [inRect, W, H]) hrel
    (by rw [hb]; norm_num)]
  norm_num [fireAt, findHitIndex, damageEnemy, enemyHitbox, inRect, hen, eC, eB]

lemma reach_frameStep (n : ℕ) (g : Game) (h : Reachable g) :
    Reachable (frameStep^[n] g) := by
  induction n with
  | zero => simpa using h
  | succ k ih =>
    rw [Function.iterate_succ_apply']
    exact Relation.ReflTransGen.tail ih
      (Step.frame (1/20) 0 0 0 (fun _ => 1) 0 _ (by norm_num) (by norm_num))

lemma reach_gB : Reachable gB := by
  have h0 : Reachable (idleState 2 0) := by
    have h := Relation.ReflTransGen.single (Step.tap rho2 240 460 init)
    have e0 : onTap rho2 240 460 init = idleState 2 0 := by
      rw [show onTap rho2 240 460 init = startGame init by
        norm_num [onTap, init, inRect, W, H]]
      exact startGame_init
    rwa [e0] at h
  have h40 : Reachable (frameStep^[40] (idleState 2 0)) := reach_frameStep 40 _ h0
  have e40 : frameStep^[40] (idleState 2 0) = gB := by
    rw [Function.iterate_succ_apply', iter_idle 39 (by norm_num),
      show (2 - (39 : ℕ) / 20 : ℚ) = 1/20 by norm_num,
      show ((39 : ℕ) / 20 : ℚ) = 39/20 by norm_num]
    exact frame40
  rwa [e40] at h40

lemma countP_set_le {α : Type} (p : α → Bool) (l : List α) (i : ℕ) (b : α)
    (h : ∀ a, l.get? i = some a → p b = true → p a = true) :
    (l.set i b).countP p ≤ l.countP p := by
  induction l generalizing i with
  | nil => simp
  | cons a as ih =>
    cases i with
    | zero =>
      simp only [List.set_cons_zero, List.countP_cons]
      have := h a rfl
      cases hb : p b with
      | false => simp [hb]; try omega
      | true => simp [hb, this hb]
    | succ j =>
      simp only [List.set_cons_succ, List.countP_cons]
      have := ih j (fun a ha => h a (by simpa using ha))
      omega

lemma updateEnemy_coverId (r s : ℚ) (w : ℕ) (dt : ℚ) (e : Enemy) :
    ((updateEnemy r s w dt e).1).coverId = e.coverId := by
  cases h : e.state <;> simp [updateEnemy, enemyShoot, h] <;> (try split_ifs) <;> simp

lemma updateEnemy_hp (r s : ℚ) (w : ℕ) (dt : ℚ) (e : Enemy) :
    ((updateEnemy r s w dt e).1).hp = e.hp := by
  cases h : e.state <;> simp [updateEnemy, enemyShoot, h] <;> (try split_ifs) <;> simp

lemma updateEnemy_dead_iff (r s : ℚ) (w : ℕ) (dt : ℚ) (e : Enemy) :
    (((updateEnemy r s w dt e).1).state = EState.dead) ↔ e.state = EState.dead := by
  cases h : e.state <;> simp [updateEnemy, enemyShoot, h] <;> (try split_ifs) <;> simp

lemma updateEnemies_mem (er : ℕ → ℚ) (s : ℚ) (w : ℕ) (dt : ℚ) :
    ∀ (i : ℕ) (es : List Enemy), ∀ x ∈ (updateEnemies er s w dt i es).1,
      ∃ r e, e ∈ es ∧ x = (updateEnemy r s w dt e).1 := by
  intro i es
  induction es generalizing i with
  | nil => simp [updateEnemies]
  | cons a as ih =>
    intro x hx
    simp only [updateEnemies, List.mem_cons] at hx
    rcases hx with hx | hx
    · exact ⟨er i, a, by simp, hx⟩
    · obtain ⟨r, e, he, hxe⟩ := ih (i + 1) x hx
      exact ⟨r, e, by simp [he], hxe⟩

lemma updateEnemies_countP (er : ℕ → ℚ) (s : ℚ) (w : ℕ) (dt : ℚ) (p : Enemy → Bool)
    (hpres : ∀ r e, p ((updateEnemy r s w dt e).1) = p e) :
    ∀ (i : ℕ) (es : List Enemy),
      ((updateEnemies er s w dt i es).1).countP p = es.countP p := by
  intro i es
  induction es generalizing i with
  | nil => simp [updateEnemies]
  | cons a as ih =>
    simp only [updateEnemies, List.countP_cons, ih (i + 1), hpres]

lemma slotCount_filter_le (q : Enemy → Bool) (es : List Enemy) (sid : ℕ) :
    slotCount (es.filter q) sid ≤ slotCount es sid :=
  (List.filter_sublist es).countP_le _

lemma slotCount_append (es fs : List Enemy) (sid : ℕ) :
    slotCount (es ++ fs) sid = slotCount es sid + slotCount fs sid :=
  List.countP_append _ _ _

lemma slotCount_pos (es : List Enemy) (sid : ℕ) (h : 0 < slotCount es sid) :
    ∃ e ∈ es, e.state ≠ EState.dead ∧ e.coverId = sid := by
  have := List.countP_pos_iff.mp h
  simpa using this

lemma survives_iff (e : Enemy) :
    survives e = true ↔ ¬ (e.state = EState.dead ∧ e.deadT ≤ 0) := by
  simp only [survives, decide_eq_true_eq]

lemma inv_init : Inv init := by
  refine ⟨?_, ?_, ?_, ?_, ?_, ?_, ?_, ?_, ?_⟩ <;>
    simp [init, slotCount, MAX_LIVES, MAX_BULLETS]

lemma inv_startGame (g : Game) : Inv (startGame g) := by
  refine ⟨?_, ?_, ?_, ?_, ?_, ?_, ?_, ?_, ?_⟩ <;>
    simp [startGame, slotCount, MAX_LIVES, MAX_BULLETS]

lemma inv_triggerReload (g : Game) (h : Inv g) : Inv (triggerReload g) := by
  obtain ⟨b1, b2, l1, l2, ei, sl, w1, w2, w3⟩ := h
  unfold triggerReload
  split_ifs
  · exact ⟨b1, b2, l1, l2, ei, sl, w1, w2, w3⟩
  · exact ⟨b1, b2, l1, l2, ei, sl, w1, w2, w3⟩

lemma inv_takeDamage (g : Game) (h : Inv g) : Inv (takeDamage g) := by
  obtain ⟨b1, b2, l1, l2, ei, sl, w1, w2, w3⟩ := h
  have l3 : (0 : ℤ) ≤ max 0 (g.lives - 1) := le_max_left 0 _
  have l4 : max 0 (g.lives - 1) ≤ 3 := max_le (by norm_num) (by linarith)
  simp only [takeDamage]
  split_ifs
  · exact ⟨b1, b2, l1, l2, ei, sl, w1, w2, w3⟩
  · exact ⟨b1, b2, l3, l4, ei, sl, w1, w2, w3⟩
  · exact ⟨b1, b2, l3, l4, ei, sl, w1, w2, w3⟩

lemma inv_gameOverEvent (g : Game) (h : Inv g) : Inv (gameOverEvent g) := by
  obtain ⟨b1, b2, l1, l2, ei, sl, w1, w2, w3⟩ := h
  exact ⟨b1, b2, l1, l2, ei, sl, w1, w2, w3⟩

lemma inv_shootDamageEvent (e : Enemy) (g : Game) (h : Inv g) :
    Inv (shootDamageEvent e g) := by
  unfold shootDamageEvent
  split_ifs
  · exact h
  · exact inv_takeDamage g h

lemma inv_advanceWave (g : Game) (h : Inv g) : Inv (advanceWave g) := by
  obtain ⟨b1, b2, l1, l2, ei, sl, w1, w2, w3⟩ := h
  unfold advanceWave
  split_ifs
  · exact ⟨b1, b2, l1, l2, ei, sl, w1, w2, w3⟩
  · refine ⟨b1, b2, l1, l2, by simp, by simp [slotCount], ?_, ?_, ?_⟩
    all_goals simp
    all_goals omega

lemma inv_hideEvent (i : ℕ) (r : ℚ) (g : Game) (h : Inv g) : Inv (hideEvent i r g) := by
  obtain ⟨b1, b2, l1, l2, ei, sl, w1, w2, w3⟩ := h
  unfold hideEvent
  cases hget : g.enemies.get? i with
  | none => exact ⟨b1, b2, l1, l2, ei, sl, w1, w2, w3⟩
  | some e =>
    dsimp only
    split_ifs with hdead
    · exact ⟨b1, b2, l1, l2, ei, sl, w1, w2, w3⟩
    · have hmem : e ∈ g.enemies := List.get?_mem hget
      have hhp : ¬ e.hp ≤ 0 := fun hc => hdead ((ei e hmem).mpr hc)
      refine ⟨b1, b2, l1, l2, ?_, ?_, w1, w2, w3⟩
      · intro x hx
        rcases List.mem_or_eq_of_mem_set hx with hx | hx
        · exact ei x hx
        · subst hx
          simp [EnemyInv, hhp]
      · intro sid
        refine le_trans (countP_set_le _ _ _ _ ?_) (sl sid)
        intro a ha hpa
        rw [hget] at ha
        cases ha
        simp only [decide_eq_true_eq] at hpa ⊢
        exact ⟨hdead, hpa.2⟩

lemma inv_damageEnemy (ρ : ℕ → ℚ) (i : ℕ) (g : Game) (h : Inv g) :
    Inv (damageEnemy ρ i g) := by
  obtain ⟨b1, b2, l1, l2, ei, sl, w1, w2, w3⟩ := h
  unfold damageEnemy
  cases hget : g.enemies.get? i with
  | none => exact ⟨b1, b2, l1, l2, ei, sl, w1, w2, w3⟩
  | some e =>
    have hmem : e ∈ g.enemies := List.get?_mem hget
    dsimp only
    split_ifs with hhp
    · refine ⟨b1, b2, l1, l2, ?_, ?_, w1, w2, w3⟩
      · intro x hx
        rcases List.mem_or_eq_of_mem_set hx with hx | hx
        · exact ei x hx
        · subst hx
          simp [EnemyInv, hhp]
      · intro sid
        refine le_trans (countP_set_le _ _ _ _ ?_) (sl sid)
        intro a ha hpa
        simp only [decide_eq_true_eq] at hpa
        exact absurd rfl hpa.1
    · have hlive : e.state ≠ EState.dead := by
        intro hd
        exact hhp (by have := (ei e hmem).mp hd; omega)
      refine ⟨b1, b2, l1, l2, ?_, ?_, w1, w2, w3⟩
      · intro x hx
        rcases List.mem_or_eq_of_mem_set hx with hx | hx
        · exact ei x hx
        · subst hx
          simp [EnemyInv, hhp]
      · intro sid
        refine le_trans (countP_set_le _ _ _ _ ?_) (sl sid)
        intro a ha hpa
        rw [hget] at ha
        cases ha
        simp only [decide_eq_true_eq] at hpa ⊢
        exact ⟨hlive, hpa.2⟩

lemma inv_fireAt (ρ : ℕ → ℚ) (x y : ℚ) (g : Game) (h : Inv g) (hb : 1 ≤ g.bullets) :
    Inv (fireAt ρ x y g) := by
  obtain ⟨b1, b2, l1, l2, ei, sl, w1, w2, w3⟩ := h
  unfold fireAt
  have h1 : Inv { g with
      bullets := g.bullets - 1
      particles := g.particles ++
        [{ ptype := PType.flash, x := W / 2, y := H - 145, vx := none, vy := none,
           t := 7/50 }] } :=
    ⟨show (0 : ℤ) ≤ g.bullets - 1 by omega, show g.bullets - 1 ≤ 6 by omega,
     l1, l2, ei, sl, w1, w2, w3⟩
  cases hfind : findHitIndex x y g.enemies with
  | none =>
    obtain ⟨c1, c2, d1, d2, fi, tl, v1, v2, v3⟩ := h1
    dsimp only
    rw [hfind]
    exact ⟨c1, c2, d1, d2, fi, tl, v1, v2, v3⟩
  | some i =>
    dsimp only
    rw [hfind]
    exact inv_damageEnemy ρ i _ h1

lemma inv_onTap (ρ : ℕ → ℚ) (x y : ℚ) (g : Game) (h : Inv g) : Inv (onTap ρ x y g) := by
  unfold onTap
  split_ifs with h1 h2 h3 h4 h5 h6 h7
  · exact inv_startGame g
  · exact h
  · exact inv_startGame g
  · exact h
  · exact h
  · exact inv_triggerReload g h
  · exact inv_triggerReload g h
  · push_neg at h7
    exact inv_fireAt ρ x y g h (by omega)

lemma slotCount_append_singleton (es : List Enemy) (x : Enemy) (sid : ℕ)
    (hsl : ∀ sid2, slotCount es sid2 ≤ 1) (hzero : slotCount es x.coverId = 0) :
    slotCount (es ++ [x]) sid ≤ 1 := by
  rw [slotCount_append]
  rcases eq_or_ne x.coverId sid with rfl | hne
  · rw [hzero]
    have h1 : slotCount [x] x.coverId ≤ 1 := by
      simp only [slotCount, List.countP_cons, List.countP_nil]
      split_ifs <;> omega
    omega
  · have h0 : slotCount [x] sid = 0 := by
      simp [slotCount, List.countP_cons, hne]
    rw [h0]
    have := hsl sid
    omega

lemma inv_spawnEnemy (slot outfit : ℕ) (g : Game) (h : Inv g) :
    Inv (spawnEnemy slot outfit g) := by
  obtain ⟨b1, b2, l1, l2, ei, sl, w1, w2, w3⟩ := h
  unfold spawnEnemy
  cases hget : (spawnFree g).get? (slot % (spawnFree g).length) with
  | none => exact ⟨b1, b2, l1, l2, ei, sl, w1, w2, w3⟩
  | some cover =>
    have hcmem : cover ∈ spawnFree g := List.get?_mem hget
    have hnotused : ¬ cover.id ∈ spawnUsedIds g := by
      have := (List.mem_filter.mp hcmem).2
      simpa using this
    have hzero : slotCount g.enemies cover.id = 0 := by
      by_contra hc
      obtain ⟨e, hmem, hnd, hcid⟩ :=
        slotCount_pos g.enemies cover.id (Nat.pos_of_ne_zero hc)
      refine hnotused ?_
      simp only [spawnUsedIds, List.mem_map]
      exact ⟨e, List.mem_filter.mpr ⟨hmem, by simpa using hnd⟩, hcid⟩
    dsimp only
    refine ⟨b1, b2, l1, l2, ?_, ?_, w1, w2, w3⟩
    · intro x hx
      rcases List.mem_append.mp hx with hx | hx
      · exact ei x hx
      · rcases List.mem_singleton.mp hx with rfl
        simp only [EnemyInv]
        split_ifs with hw <;> simp
    · intro sid
      exact slotCount_append_singleton _ _ _ sl hzero

lemma inv_spawnStep (dt jit : ℚ) (slot outfit : ℕ) (g : Game) (h : Inv g) :
    Inv (spawnStep dt jit slot outfit g) := by
  obtain ⟨b1, b2, l1, l2, ei, sl, w1, w2, w3⟩ := h
  unfold spawnStep
  dsimp only
  split_ifs
  · exact inv_spawnEnemy slot outfit _ ⟨b1, b2, l1, l2, ei, sl, w1, w2, w3⟩
  · exact ⟨b1, b2, l1, l2, ei, sl, w1, w2, w3⟩
  · exact ⟨b1, b2, l1, l2, ei, sl, w1, w2, w3⟩

lemma inv_decayStep (dt : ℚ) (g : Game) (h : Inv g) : Inv (decayStep dt g) := by
  obtain ⟨b1, b2, l1, l2, ei, sl, w1, w2, w3⟩ := h
  exact ⟨b1, b2, l1, l2, ei, sl, w1, w2, w3⟩

lemma inv_reloadStep (dt : ℚ) (g : Game) (h : Inv g) : Inv (reloadStep dt g) := by
  obtain ⟨b1, b2, l1, l2, ei, sl, w1, w2, w3⟩ := h
  unfold reloadStep
  split_ifs
  · exact ⟨by norm_num [MAX_BULLETS], by norm_num [MAX_BULLETS], l1, l2, ei, sl, w1, w2, w3⟩
  · exact ⟨b1, b2, l1, l2, ei, sl, w1, w2, w3⟩
  · exact ⟨b1, b2, l1, l2, ei, sl, w1, w2, w3⟩

lemma inv_entitiesStep (er : ℕ → ℚ) (s : ℚ) (dt : ℚ) (g : Game) (h : Inv g) :
    Inv (entitiesStep er s dt g) := by
  obtain ⟨b1, b2, l1, l2, ei, sl, w1, w2, w3⟩ := h
  refine ⟨b1, b2, l1, l2, ?_, ?_, w1, w2, w3⟩
  · intro x hx
    have hx2 : x ∈ (updateEnemies er s g.wave dt 0 g.enemies).1 :=
      List.mem_of_mem_filter hx
    obtain ⟨r, e, hmem, rfl⟩ := updateEnemies_mem er s g.wave dt 0 g.enemies x hx2
    have := ei e hmem
    simp only [EnemyInv] at this ⊢
    rw [updateEnemy_dead_iff, updateEnemy_hp]
    exact this
  · intro sid
    refine le_trans (slotCount_filter_le _ _ _) ?_
    rw [show slotCount (updateEnemies er s g.wave dt 0 g.enemies).1 sid
        = slotCount g.enemies sid from
      updateEnemies_countP er s g.wave dt _ (fun r e => ?_) 0 g.enemies]
    · exact sl sid
    · have h1 := updateEnemy_dead_iff r s g.wave dt e
      have h2 := updateEnemy_coverId r s g.wave dt e
      simp only [decide_eq_decide]
      rw [h2]
      constructor
      · rintro ⟨hd, hc⟩
        exact ⟨fun hcon => hd (h1.mpr hcon), hc⟩
      · rintro ⟨hd, hc⟩
        exact ⟨fun hcon => hd (h1.mp hcon), hc⟩

lemma inv_update (dt jit : ℚ) (slot outfit : ℕ) (er : ℕ → ℚ) (s : ℚ) (g : Game)
    (h : Inv g) : Inv (update dt jit slot outfit er s g) := by
  unfold update
  split_ifs
  · exact h
  · exact inv_entitiesStep er s dt _
      (inv_spawnStep dt jit slot outfit _
        (inv_reloadStep dt _ (inv_decayStep dt g h)))

lemma inv_step (g g2 : Game) (h : Inv g) (hs : Step g g2) : Inv g2 := by
  cases hs with
  | tap ρ x y => exact inv_onTap ρ x y g h
  | frame dt jit slot outfit er s _ hdt0 hdt1 =>
    exact inv_update dt jit slot outfit er s g h
  | reloadEvent => exact inv_triggerReload g h
  | waveEvent => exact inv_advanceWave g h
  | hidingEvent i r => exact inv_hideEvent i r g h
  | damageEvent e => exact inv_shootDamageEvent e g h
  | overEvent => exact inv_gameOverEvent g h

lemma inv_reachable (g : Game) (h : Reachable g) : Inv g := by
  induction h with
  | refl => exact inv_init
  | tail _ hstep ih => exact inv_step _ _ ih hstep


lemma triggerReload_bullets (g : Game) : (triggerReload g).bullets = g.bullets := by
  unfold triggerReload
  split_ifs <;> rfl

lemma triggerReload_enemies (g : Game) : (triggerReload g).enemies = g.enemies := by
  unfold triggerReload
  split_ifs <;> rfl

lemma damageEnemy_bullets (ρ : ℕ → ℚ) (i : ℕ) (g : Game) :
    (damageEnemy ρ i g).bullets = g.bullets := by
  unfold damageEnemy
  cases g.enemies.get? i with
  | none => rfl
  | some e =>
    dsimp only
    split_ifs <;> rfl

lemma fireAt_bullets (ρ : ℕ → ℚ) (x y : ℚ) (g : Game) :
    (fireAt ρ x y g).bullets = g.bullets - 1 := by
  unfold fireAt
  dsimp only
  cases hfind : findHitIndex x y g.enemies with
  | none => rfl
  | some i => rw [damageEnemy_bullets]

lemma onTap_playing_reload (ρ : ℕ → ℚ) (x y : ℚ) (g : Game)
    (hst : g.state = GState.playing)
    (hcant : g.reloading = true ∨ g.bullets ≤ 0) :
    onTap ρ x y g = triggerReload g := by
  unfold onTap
  rw [hst]
  by_cases hr : inRect x y (W - 118) (H - 70) 108 34
  · rw [if_neg (by simp), if_neg (by simp), if_neg (by simp), if_pos hr]
  · rw [if_neg (by simp), if_neg (by simp), if_neg (by simp), if_neg hr, if_pos hcant]

/-- Claim C4: in every reachable state, for each of the 4 cover slots, the
number of non-Dead enemies whose assigned cover-slot identifier equals that
slot is at most 1; every operation of the step relation preserves this. -/
theorem C4_theorem (g : Game) (h : Reachable g) : ∀ sid, slotCount g.enemies sid ≤ 1 :=
  (inv_reachable g h).slots

/-- Witness for C4 at the concrete reachable initial state. -/
theorem C4_witness : slotCount init.enemies 0 ≤ 1 :=
  C4_theorem init Relation.ReflTransGen.refl 0

/-- Claim C5: in every reachable state the ammunition count lies in `[0, 6]`
and the lives count in `[0, 3]`; firing (a playing tap outside the RELOAD
rectangle, not reloading, ammunition positive) decrements ammunition by
exactly one; a tap while reloading or empty leaves ammunition unchanged; a
completed reload countdown restores ammunition to exactly 6; and the damage
command decrements lives by one floored at zero. -/
theorem C5_theorem (g : Game) (h : Reachable g) :
    (0 ≤ g.bullets ∧ g.bullets ≤ 6) ∧ (0 ≤ g.lives ∧ g.lives ≤ 3) ∧
    (∀ ρ x y, g.state = GState.playing → ¬ inRect x y (W - 118) (H - 70) 108 34 →
      g.reloading = false → 0 < g.bullets → (onTap ρ x y g).bullets = g.bullets - 1) ∧
    (∀ ρ x y, g.state = GState.playing → (g.reloading = true ∨ g.bullets ≤ 0) →
      (onTap ρ x y g).bullets = g.bullets) ∧
    (g.reloading = true → g.reloadTimer - 0 ≤ 0 → (reloadStep 0 g).bullets = 6) ∧
    (g.state = GState.playing → (takeDamage g).lives = max 0 (g.lives - 1)) := by
  obtain ⟨b1, b2, l1, l2, ei, sl, w1, w2, w3⟩ := inv_reachable g h
  refine ⟨⟨b1, b2⟩, ⟨l1, l2⟩, ?_, ?_, ?_, ?_⟩
  · intro ρ x y hst hrect hrel hb
    rw [onTap_playing_shoot ρ x y g hst hrect hrel (by omega), fireAt_bullets]
  · intro ρ x y hst hcant
    rw [onTap_playing_reload ρ x y g hst hcant, triggerReload_bullets]
  · intro hrel hrt
    unfold reloadStep
    rw [if_pos hrel, if_pos hrt]
    rfl
  · intro hst
    simp only [takeDamage]
    rw [if_neg (by simp [hst])]
    split_ifs <;> rfl

/-- Witness for C5 at the concrete reachable initial state. -/
theorem C5_witness :
    (0 ≤ init.bullets ∧ init.bullets ≤ 6) ∧ (0 ≤ init.lives ∧ init.lives ≤ 3) :=
  ⟨(C5_theorem init Relation.ReflTransGen.refl).1,
   (C5_theorem init Relation.ReflTransGen.refl).2.1⟩

/-- Claim C7: the delayed damage-to-player event scheduled by an enemy shot
is suppressed when that enemy is Dead at the moment the delayed event fires,
and the damage command itself is a no-op whenever the session is not in the
Active (playing) state. -/
theorem C7_theorem (e : Enemy) (g : Game) :
    (e.state = EState.dead → shootDamageEvent e g = g) ∧
    (g.state ≠ GState.playing → takeDamage g = g) := by
  constructor
  · intro hd
    simp [shootDamageEvent, hd]
  · intro hs
    simp [takeDamage, hs]

/-- Witness for C7: the dead enemy `eC` suppresses the delayed damage and
the damage command is a no-op in the intro state. -/
theorem C7_witness : shootDamageEvent eC init = init ∧ takeDamage init = init :=
  ⟨(C7_theorem eC init).1 rfl, (C7_theorem eC init).2 (by simp [init])⟩

/-- Claim C8: a reload command while a reload is already in progress, or
while ammunition is at the maximum of 6, is a no-op: the whole state,
including the reload countdown, is unchanged. -/
theorem C8_theorem (g : Game) (h : g.reloading = true ∨ g.bullets = MAX_BULLETS) :
    triggerReload g = g := by
  unfold triggerReload
  rw [if_pos h]

/-- Witness for C8 on a concrete state that is already reloading. -/
theorem C8_witness :
    triggerReload { init with reloading := true } = { init with reloading := true } :=
  C8_theorem { init with reloading := true } (Or.inl rfl)

/-- Claim C10: a tap during a playing session whose coordinates fall inside
the RELOAD button rectangle (x in `[W-118, W-10]`, y in `[H-70, H-36]`) is
interpreted as a reload request: the tap equals `triggerReload` and never
consumes ammunition or touches the enemies, regardless of ammunition,
reload state, or enemy hitboxes overlapping the rectangle. -/
theorem C10_theorem (ρ : ℕ → ℚ) (x y : ℚ) (g : Game)
    (hst : g.state = GState.playing)
    (hx1 : W - 118 ≤ x) (hx2 : x ≤ W - 10) (hy1 : H - 70 ≤ y) (hy2 : y ≤ H - 36) :
    onTap ρ x y g = triggerReload g ∧
    (onTap ρ x y g).bullets = g.bullets ∧
    (onTap ρ x y g).enemies = g.enemies := by
  have hin : inRect x y (W - 118) (H - 70) 108 34 := by
    refine ⟨hx1, ?_, hy1, ?_⟩
    · have : W - 118 + 108 = W - 10 := by ring
      linarith
    · have : H - 70 + 34 = H - 36 := by ring
      linarith
  have he : onTap ρ x y g = triggerReload g := by
    unfold onTap
    rw [hst, if_neg (by simp), if_neg (by simp), if_neg (by simp), if_pos hin]
  exact ⟨he, by rw [he, triggerReload_bullets], by rw [he, triggerReload_enemies]⟩

/-- Witness for C10 at a concrete playing state and tap position. -/
theorem C10_witness :
    onTap rho2 400 660 (idleState 2 0) = triggerReload (idleState 2 0) ∧
    (onTap rho2 400 660 (idleState 2 0)).bullets = (idleState 2 0).bullets ∧
    (onTap rho2 400 660 (idleState 2 0)).enemies = (idleState 2 0).enemies :=
  C10_theorem rho2 400 660 (idleState 2 0) rfl (by norm_num [W]) (by norm_num [W])
    (by norm_num [H]) (by norm_num [H])

/-- Counterexample to claim C3 as stated: in a freshly started session the
first wave's kill target is 5, not `5 + 1*2 = 7`. -/
theorem C3_counterexample :
    (startGame init).wave = 1 ∧ (startGame init).waveEnemies = 5 ∧
    (startGame init).waveEnemies ≠ 5 + (startGame init).wave * 2 := by
  refine ⟨rfl, rfl, ?_⟩
  show (5 : ℕ) ≠ 5 + 1 * 2
  norm_num

/-- Claim C3 (amended): the kill target of wave 1 (a freshly started
session) is 5; for every wave `n ≥ 2` reached by wave advancement the
target equals `5 + n*2`. -/
theorem C3_theorem (g : Game) (h : Reachable g) :
    1 ≤ g.wave ∧ (g.wave = 1 → g.waveEnemies = 5) ∧
    (2 ≤ g.wave → g.waveEnemies = 5 + g.wave * 2) := by
  obtain ⟨b1, b2, l1, l2, ei, sl, w1, w2, w3⟩ := inv_reachable g h
  exact ⟨w1, w2, w3⟩

/-- Witness for C3 at the concrete reachable initial state. -/
theorem C3_witness : 1 ≤ init.wave ∧ init.waveEnemies = 5 :=
  ⟨(C3_theorem init Relation.ReflTransGen.refl).1,
   (C3_theorem init Relation.ReflTransGen.refl).2.1 rfl⟩

/-- Counterexample to claim C2 as stated: a reachable state (start, 40
frames, two taps on the same enemy) contains an enemy with hit points
below zero — a Dead enemy awaiting removal stays visible and hit-testable,
so a second tap drives its hit points to -1. -/
theorem C2_counterexample : ∃ g, Reachable g ∧ ∃ e ∈ g.enemies, e.hp < 0 := by
  refine ⟨onTap rho2 400 300 (onTap rho2 400 300 gB), ?_, ?_⟩
  · exact Relation.ReflTransGen.tail
      (Relation.ReflTransGen.tail reach_gB (Step.tap rho2 400 300 gB))
      (Step.tap rho2 400 300 _)
  · obtain ⟨h1, h2, h3, h4, _⟩ := tap1_facts
    rw [tap2_enemies _ h1 h2 h3 h4]
    exact ⟨{ eC with hp := -1 }, by simp, by simp⟩

/-- Claim C2 (amended): in every reachable state an enemy is Dead exactly
when its hit points are `≤ 0` — every non-Dead enemy has at least 1 hit
point, and a fatal hit immediately transitions the enemy to Dead, which is
then removed once its fixed terminal timer expires.  Dead enemies awaiting
removal, however, remain visible and hit-testable, so further taps can
drive hit points below zero. -/
theorem C2_theorem (g : Game) (h : Reachable g) :
    ∀ e ∈ g.enemies, (e.state = EState.dead ↔ e.hp ≤ 0) :=
  (inv_reachable g h).enemyInv

/-- Witness for C2 at the concrete reachable state `gB` and its enemy. -/
theorem C2_witness : eB.state = EState.dead ↔ eB.hp ≤ 0 :=
  C2_theorem gB reach_gB eB (by simp [gB])

/-- Counterexample to claim C1 as stated: in a reachable playing state the
sole enemy is Entering and visible, and a tap on it damages and kills it —
Entering enemies are not excluded from the fire hit test. -/
theorem C1_counterexample :
    Reachable gB ∧
    gB.enemies.map Enemy.state = [EState.entering] ∧
    gB.enemies.map Enemy.visible = [true] ∧
    (onTap rho2 400 300 gB).enemies.map Enemy.hp = [0] ∧
    (onTap rho2 400 300 gB).enemies.map Enemy.state = [EState.dead] := by
  obtain ⟨h1, h2, h3, h4, h5⟩ := tap1_facts
  refine ⟨reach_gB, by simp [gB, eB], by simp [gB, eB], ?_, ?_⟩ <;>
    rw [h4] <;> simp [eC, eB]

/-- Claim C1 (amended): the fire hit test is evaluated against every
visible enemy regardless of behavior state (Entering and Dead included):
whatever the state of the first visible enemy whose hitbox contains the
tap, its hit points are decremented by one. -/
theorem C1_theorem (ρ : ℕ → ℚ) (x y : ℚ) (g : Game) (i : ℕ) (e : Enemy)
    (hst : g.state = GState.playing)
    (hrect : ¬ inRect x y (W - 118) (H - 70) 108 34)
    (hrel : g.reloading = false) (hb : ¬ g.bullets ≤ 0)
    (hfind : findHitIndex x y g.enemies = some i)
    (hget : g.enemies.get? i = some e) :
    ∃ e2, (onTap ρ x y g).enemies.get? i = some e2 ∧ e2.hp = e.hp - 1 := by
  rw [onTap_playing_shoot ρ x y g hst hrect hrel hb]
  unfold fireAt
  dsimp only
  rw [hfind]
  unfold damageEnemy
  dsimp only
  rw [hget]
  dsimp only
  split_ifs with hhp
  · refine ⟨{ e with hp := e.hp - 1, state := EState.dead, visible := true, deadT := 3/4 },
      ?_, ?_⟩
    · rw [List.get?_set_eq, hget]
      rfl
    · simp
  · refine ⟨{ e with hp := e.hp - 1, state := EState.retreating, retreatT := 9/20 },
      ?_, ?_⟩
    · rw [List.get?_set_eq, hget]
      rfl
    · simp

/-- Witness for C1 on the concrete state `gB` whose enemy is Entering. -/
theorem C1_witness :
    ∃ e2, (onTap rho2 400 300 gB).enemies.get? 0 = some e2 ∧ e2.hp = eB.hp - 1 :=
  C1_theorem rho2 400 300 gB 0 eB rfl (by norm_num [inRect, W, H]) rfl
    (by norm_num [gB]) (by norm_num [findHitIndex, enemyHitbox, inRect, gB, eB]) rfl

/-- Claim C6: a successful tap hit on a Peeking enemy with 1 of 1 hit
points immediately transitions it to Dead (visible, terminal timer 3/4 s),
increases the score by exactly `100 * wave`, increments the wave kill
counter by exactly 1, and the enemy stays in the enemy set (the removal
filter keeps it) until updates totalling its fixed terminal duration have
elapsed, at which point the filter removes it. -/
theorem C6_theorem (ρ : ℕ → ℚ) (x y : ℚ) (g : Game) (i : ℕ) (e : Enemy)
    (hst : g.state = GState.playing)
    (hrect : ¬ inRect x y (W - 118) (H - 70) 108 34)
    (hrel : g.reloading = false) (hb : ¬ g.bullets ≤ 0)
    (hfind : findHitIndex x y g.enemies = some i)
    (hget : g.enemies.get? i = some e)
    (hpeek : e.state = EState.peeking) (hhp : e.hp = 1) (hmax : e.maxHp = 1) :
    (onTap ρ x y g).score = g.score + 100 * g.wave ∧
    (onTap ρ x y g).waveKills = g.waveKills + 1 ∧
    ∃ e2, (onTap ρ x y g).enemies.get? i = some e2 ∧
      e2.state = EState.dead ∧ e2.deadT = 3/4 ∧ e2.visible = true ∧
      survives e2 = true ∧
      ∀ r s w dt, (updateEnemy r s w dt e2).1.state = EState.dead ∧
        (updateEnemy r s w dt e2).1.deadT = 3/4 - dt ∧
        ((survives (updateEnemy r s w dt e2).1 = true) ↔ dt < 3/4) := by
  rw [onTap_playing_shoot ρ x y g hst hrect hrel hb]
  unfold fireAt
  dsimp only
  rw [hfind]
  unfold damageEnemy
  dsimp only
  rw [hget]
  dsimp only
  rw [if_pos (by rw [hhp]; norm_num)]
  refine ⟨rfl, rfl, killedEnemy e, ?_, rfl, rfl, rfl, ?_, ?_⟩
  · rw [List.get?_set_eq, hget]
    rfl
  · rw [survives_iff]
    rintro ⟨_, hc⟩
    norm_num [killedEnemy] at hc
  · intro r s w dt
    have hs1 : (updateEnemy r s w dt (killedEnemy e)).1.state = EState.dead := by
      simp [updateEnemy, killedEnemy]
    have hs2 : (updateEnemy r s w dt (killedEnemy e)).1.deadT = 3/4 - dt := by
      simp [updateEnemy, killedEnemy]
    refine ⟨hs1, hs2, ?_⟩
    rw [survives_iff, hs1, hs2]
    constructor
    · intro hcon
      by_contra hlt
      push_neg at hlt
      exact hcon ⟨rfl, by linarith⟩
    · rintro hlt ⟨_, hc⟩
      linarith

/-- Witness for C6 on a concrete playing state with a peeking enemy. -/
theorem C6_witness :
    (onTap rho2 400 300 gP).score = gP.score + 100 * gP.wave ∧
    (onTap rho2 400 300 gP).waveKills = gP.waveKills + 1 ∧
    ∃ e2, (onTap rho2 400 300 gP).enemies.get? 0 = some e2 ∧
      e2.state = EState.dead ∧ e2.deadT = 3/4 ∧ e2.visible = true ∧
      survives e2 = true ∧
      ∀ r s w dt, (updateEnemy r s w dt e2).1.state = EState.dead ∧
        (updateEnemy r s w dt e2).1.deadT = 3/4 - dt ∧
        ((survives (updateEnemy r s w dt e2).1 = true) ↔ dt < 3/4) :=
  C6_theorem rho2 400 300 gP 0 eP rfl (by norm_num [inRect, W, H]) rfl
    (by norm_num [gP, gB])
    (by norm_num [findHitIndex, enemyHitbox, inRect, gP, gB, eP, eB]) rfl rfl rfl rfl

lemma reloadStep_enemies (dt : ℚ) (g : Game) : (reloadStep dt g).enemies = g.enemies := by
  unfold reloadStep
  split_ifs <;> rfl

lemma reloadStep_spawnTimer (dt : ℚ) (g : Game) :
    (reloadStep dt g).spawnTimer = g.spawnTimer := by
  unfold reloadStep
  split_ifs <;> rfl

lemma reloadStep_waveSpawned (dt : ℚ) (g : Game) :
    (reloadStep dt g).waveSpawned = g.waveSpawned := by
  unfold reloadStep
  split_ifs <;> rfl

lemma updateEnemies_length (er : ℕ → ℚ) (s : ℚ) (w : ℕ) (dt : ℚ) :
    ∀ (i : ℕ) (es : List Enemy), (updateEnemies er s w dt i es).1.length = es.length := by
  intro i es
  induction es generalizing i with
  | nil => simp [updateEnemies]
  | cons a as ih => simp [updateEnemies, ih (i + 1)]

/-- Claim C9: when every one of the 4 cover slots is occupied by a
non-Dead enemy, the spawn attempt performs no state mutation: the spawn
block is the identity, and a full simulation step leaves the spawn
countdown unconsumed, the spawned-this-wave counter unchanged, and adds no
enemy. -/
theorem C9_theorem (dt jit : ℚ) (slot outfit : ℕ) (er : ℕ → ℚ) (s : ℚ) (g : Game)
    (hocc : ∀ c ∈ COVERS, ∃ e ∈ g.enemies, e.state ≠ EState.dead ∧ e.coverId = c.id) :
    spawnStep dt jit slot outfit g = g ∧
    (update dt jit slot outfit er s g).spawnTimer = g.spawnTimer ∧
    (update dt jit slot outfit er s g).waveSpawned = g.waveSpawned ∧
    (update dt jit slot outfit er s g).enemies.length ≤ g.enemies.length := by
  have key : ∀ g2 : Game, g2.enemies = g.enemies → spawnStep dt jit slot outfit g2 = g2 := by
    intro g2 he
    unfold spawnStep
    rw [if_neg]
    rintro ⟨hlt, _⟩
    have hsub : ([0, 1, 2, 3] : List ℕ) ⊆
        ((g2.enemies.filter (fun e => decide (e.state ≠ EState.dead))).map
          (fun e => e.coverId)) := by
      intro n hn
      have hex : ∃ c ∈ COVERS, c.id = n := by
        simp only [List.mem_cons, List.not_mem_nil, or_false] at hn
        rcases hn with rfl | rfl | rfl | rfl
        · exact ⟨⟨0, 78, 410, 90, 112, CoverKind.barrel⟩, by simp [COVERS], rfl⟩
        · exact ⟨⟨1, 200, 405, 134, 92, CoverKind.table⟩, by simp [COVERS], rfl⟩
        · exact ⟨⟨2, 308, 405, 134, 92, CoverKind.table⟩, by simp [COVERS], rfl⟩
        · exact ⟨⟨3, 420, 410, 90, 112, CoverKind.barrel⟩, by simp [COVERS], rfl⟩
      obtain ⟨c, hc, hcid⟩ := hex
      obtain ⟨e, he2, hnd, hid⟩ := hocc c hc
      rw [he]
      exact List.mem_map.mpr
        ⟨e, List.mem_filter.mpr ⟨he2, by simpa using hnd⟩, hid.trans hcid⟩
    have hnodup : ([0, 1, 2, 3] : List ℕ).Nodup := by decide
    have hlen := (List.subperm_of_subset hnodup hsub).length_le
    rw [List.length_map] at hlen
    have hmax : maxActiveFor g2.wave ≤ 4 := Nat.min_le_left _ _
    simp only [List.length_cons, List.length_nil] at hlen
    omega
  have hg2e : (reloadStep dt (decayStep dt g)).enemies = g.enemies := by
    rw [reloadStep_enemies]
    rfl
  have hsp := key (reloadStep dt (decayStep dt g)) hg2e
  refine ⟨key g rfl, ?_⟩
  unfold update
  split_ifs with hs
  · exact ⟨rfl, rfl, le_refl _⟩
  · rw [hsp]
    refine ⟨?_, ?_, ?_⟩
    · show (reloadStep dt (decayStep dt g)).spawnTimer = g.spawnTimer
      rw [reloadStep_spawnTimer]
      rfl
    · show (reloadStep dt (decayStep dt g)).waveSpawned = g.waveSpawned
      rw [reloadStep_waveSpawned]
      rfl
    · show ((updateEnemies er s (reloadStep dt (decayStep dt g)).wave dt 0
          (reloadStep dt (decayStep dt g)).enemies).1.filter survives).length ≤
        g.enemies.length
      calc ((updateEnemies er s (reloadStep dt (decayStep dt g)).wave dt 0
              (reloadStep dt (decayStep dt g)).enemies).1.filter survives).length
          ≤ (updateEnemies er s (reloadStep dt (decayStep dt g)).wave dt 0
              (reloadStep dt (decayStep dt g)).enemies).1.length :=
            List.length_filter_le _ _
        _ = (reloadStep dt (decayStep dt g)).enemies.length :=
            updateEnemies_length _ _ _ _ _ _
        _ = g.enemies.length := by rw [hg2e]

/-- Witness for C9 on a concrete state with all four slots occupied. -/
theorem C9_witness :
    spawnStep (1/20) 0 0 0 gFull = gFull ∧
    (update (1/20) 0 0 0 (fun _ => 1) 0 gFull).spawnTimer = gFull.spawnTimer ∧
    (update (1/20) 0 0 0 (fun _ => 1) 0 gFull).waveSpawned = gFull.waveSpawned ∧
    (update (1/20) 0 0 0 (fun _ => 1) 0 gFull).enemies.length ≤ gFull.enemies.length :=
  C9_theorem (1/20) 0 0 0 (fun _ => 1) 0 gFull (by decide)

end WesternShooter
